import Mathlib

/-!
# Verification of the TrainCompany-tools route & track reconstruction engine

Shallow embedding of the core of the repository:

* `importers/db_trassenfinder.py` — `convert_waypoints_to_route`,
  `track_from_path`, `invalid_track` (TrackSegmentResolver / RouteAssembler);
* `importers/brouter_new.py` — `BrouterImporterNew.import_data`
  (StationResolver and TraceSegmenter phases), `normalize_name`,
  `group_from_photon_response`, `largest_group`,
  `approximate_distance_to_line`.

Python floats are modelled as rationals (`ℚ`); fallible operations
(`KeyError`, `IndexError`, `TypeError`, `assert`, `StatisticsError`)
are modelled in the `Option` monad, `none` meaning the run aborts with
an uncaught exception.  The data-model classes (`structures/station.py`,
`structures/route.py`, the `geo` package) are not part of the given
sources; they are plain record types and are modelled from the spec as
noted on each definition.
-/

set_option linter.unusedVariables false

namespace TrainCompany

/-- Modelled from the spec: `geo.Location` — latitude/longitude in floating
point degrees, equality by value (the `geo` package is not in the sources). -/
structure Location where
  latitude : ℚ
  longitude : ℚ
deriving DecidableEq

/-- Modelled from the spec: one entry of a station's "path locations" —
a route-number plus kilometre-marker pair (`StreckenKilometer` of
`structures/station.py`, which is not in the sources).  Only the two fields
read by `convert_waypoints_to_route` (`route_number`, `lfd_km`) are kept. -/
structure PathLocation where
  route_number : Nat
  lfd_km : ℚ
deriving DecidableEq

/-- Modelled from the spec: `structures.station.Station`
(`structures/station.py` is not in the sources).  The fields carried are
exactly those the embedded code reads or writes: name, numeric identifier,
ordered code tuple, optional location, optional category group, and the
path locations used by the track-segment resolver. -/
structure Station where
  name : List Char
  number : Int
  codes : List (List Char)
  location : Option Location
  group : Option Int
  locations_path : List PathLocation
deriving DecidableEq

/-- `structures.route.CodeWaypoint` (modelled from the spec: cumulative
distance from start, a station code, scheduled-stop flag, optional route
number for the next hop; `structures/route.py` is not in the sources). -/
structure CodeWaypoint where
  distance_from_start : ℚ
  code : List Char
  is_stop : Bool
  next_route_number : Option Nat
deriving DecidableEq

/-- `structures.route.Track` (modelled from the spec: route number,
electrified flag, kind classification, optional from/to kilometre bounds,
length).  The kind classification (`TrackKind`, an enumeration ordered for
`statistics.median_high`) is modelled as an integer; the fallback branch of
`track_from_path` in the source writes the raw integer `-1` for it. -/
structure Track where
  route_number : Option Nat
  electrified : Bool
  kind : Int
  from_km : Option ℚ
  to_km : Option ℚ
  length : ℚ
deriving DecidableEq

/-- `structures.route.Path` (modelled from the spec: all tracks of one
route number).  The route-number field keeps the source's spelling
`route_numer` (`path.route_numer` in `convert_waypoints_to_route`). -/
structure Path where
  tracks : List Track
  route_numer : Nat
deriving DecidableEq

/-- `structures.route.Route` (modelled from the spec: ordered waypoints
plus, per consecutive waypoint pair, the tuple of traversed tracks). -/
structure Route where
  waypoints : List CodeWaypoint
  tracks_used : List (List Track)
deriving DecidableEq

/-! ## TrackSegmentResolver / RouteAssembler (`importers/db_trassenfinder.py`) -/

/-- Modelled from the spec: the station catalog keyed by code
(`iter_stations_by_codes_reverse` of `structures/station.py`, not in the
sources, feeds the dict comprehension in `convert_waypoints_to_route`; the
reversed iteration makes the earliest station win for a duplicated code).
A lookup miss is a Python `KeyError`. -/
def codesToStation (station_data : List Station) (code : List Char) : Option Station :=
  station_data.find? (fun s => s.codes.contains code)

/-- The dict comprehension `{path.route_numer: path for path in path_data}`:
on duplicate route numbers the later entry wins. -/
def routeLookup (path_data : List Path) (n : Nat) : Option Path :=
  path_data.reverse.find? (fun p => p.route_numer == n)

/-- Python truthiness of `waypoint.next_route_number : Optional[int]`:
`None` and `0` are falsy. -/
def truthyRoute : Option Nat → Bool
  | none => false
  | some n => n != 0

/-- The chained comparison `a <= b <= c` where `b` is
`track.from_km`/`track.to_km : Optional[float]`: comparing `None`
raises `TypeError` (`none`); `a <= b` failing short-circuits the chain. -/
def chain3 (a : ℚ) (b? : Option ℚ) (c : ℚ) : Option Bool :=
  match b? with
  | none => none
  | some b => if a ≤ b then some (decide (b ≤ c)) else some false

/-- `km_start <= track.from_km <= km_end or km_start <= track.to_km <= km_end`
with Python's short-circuiting `or`. -/
def overlapB (ks ke : ℚ) (t : Track) : Option Bool :=
  (chain3 ks t.from_km ke).bind (fun b1 =>
    if b1 then some true else chain3 ks t.to_km ke)

/-- The collection loop over `path_used.tracks` (lines 98–100 of
`db_trassenfinder.py`): keep, in order, each track whose `from_km` or
`to_km` lies within `[km_start, km_end]`. -/
def collectTracks (ks ke : ℚ) : List Track → Option (List Track)
  | [] => some []
  | t :: rest =>
    (overlapB ks ke t).bind (fun b =>
      (collectTracks ks ke rest).map (fun tl => if b then t :: tl else tl))

/-- Python `sorted` (ascending); insertion sort — only the value at the
median index matters, so stability is irrelevant here. -/
def insertAsc {α : Type} [LinearOrder α] (a : α) : List α → List α
  | [] => [a]
  | b :: r => if a ≤ b then a :: b :: r else b :: insertAsc a r

/-- Python `sorted` for `statistics.median_high`. -/
def sortAsc {α : Type} [LinearOrder α] (l : List α) : List α :=
  l.foldr insertAsc []

/-- `statistics.median_high`: sorts the data and returns the element at
index `n // 2`; an empty sequence raises `StatisticsError` (`none`). -/
def medianHigh {α : Type} [LinearOrder α] (l : List α) : Option α :=
  (sortAsc l).get? (l.length / 2)

/-- `invalid_track` of `db_trassenfinder.py`: the placeholder track for an
unknown route number (`TrackKind.UNKNOWN` modelled as the integer
constant below). -/
def TrackKindUNKNOWN : Int := 0

/-- `invalid_track(route_number)` — note the argument is
`waypoint.next_route_number : Optional[int]`. -/
def invalid_track (route_number : Option Nat) : Track :=
  { route_number := route_number
    electrified := false
    kind := TrackKindUNKNOWN
    from_km := none
    to_km := none
    length := 0 }

/-- `track_from_path` of `db_trassenfinder.py`: synthesize a fallback track.
When no last segment is known and the route is in the catalog, a
median-high segment over the route's full path is generated first
(`StatisticsError` on an empty path aborts, `none`). -/
def track_from_path (route_number : Nat) (last_known_segment : Option Track)
    (to_km : Option ℚ) (path_data : Nat → Option Path) : Option Track :=
  match last_known_segment, path_data route_number with
  | none, some p =>
    (medianHigh (p.tracks.map (·.electrified))).bind (fun el =>
      (medianHigh (p.tracks.map (·.kind))).map (fun kd =>
        let last : Track :=
          { route_number := some route_number, electrified := el, kind := kd
            from_km := none, to_km := none, length := 0 }
        { route_number := some route_number
          electrified := last.electrified
          kind := last.kind
          from_km := last.to_km
          to_km := to_km
          length := 0 }))
  | last?, _ =>
    some { route_number := some route_number
           electrified := (last?.map (·.electrified)).getD false
           kind := (last?.map (·.kind)).getD (-1)
           from_km := last?.bind (·.to_km)
           to_km := to_km
           length := 0 }

/-- The body of the per-hop loop of `convert_waypoints_to_route` for one
consecutive waypoint pair, after both station lookups succeeded.
`tracks_between_waypoints` is the hop-local list, freshly initialised to
`[]` — hence `tracks_between_waypoints[-1] if tracks_between_waypoints
else None` at the two fallback call sites is taken on the empty list. -/
def hopFor (path_data : List Path) (w w2 : CodeWaypoint)
    (station next_station : Station) : Option (List Track) :=
  if truthyRoute w.next_route_number
      && (routeLookup path_data (w.next_route_number.getD 0)).isSome then
    (routeLookup path_data (w.next_route_number.getD 0)).bind (fun path_used =>
      let n := w.next_route_number.getD 0
      if station.locations_path ≠ [] ∧ next_station.locations_path ≠ [] then
        let station_km :=
          (station.locations_path.filter (fun l => l.route_number == n)).map (·.lfd_km)
        let next_station_km :=
          (next_station.locations_path.filter (fun l => l.route_number == n)).map (·.lfd_km)
        match station_km, next_station_km with
        | s0 :: _, t0 :: _ =>
          collectTracks (min s0 t0) (max s0 t0) path_used.tracks
        | skm, nkm =>
          let next_km : Option ℚ := nkm.head?
          let tracks_between_waypoints : List Track := []
          (track_from_path n tracks_between_waypoints.getLast? next_km
            (routeLookup path_data)).map (fun t => [t])
      else
        let tracks_between_waypoints : List Track := []
        (track_from_path n tracks_between_waypoints.getLast? none
          (routeLookup path_data)).map (fun t => [t]))
  else
    some [invalid_track w.next_route_number]

/-- The loop of `convert_waypoints_to_route` over
`zip(waypoints, waypoints[1:])`, threading the `Option` (abort) monad. -/
def convertAux (station_data : List Station) (path_data : List Path) :
    List CodeWaypoint → Option (List (List Track))
  | [] => some []
  | [_] => some []
  | w :: w2 :: rest =>
    (codesToStation station_data w.code).bind (fun station =>
      (codesToStation station_data w2.code).bind (fun next_station =>
        (hopFor path_data w w2 station next_station).bind (fun hop =>
          (convertAux station_data path_data (w2 :: rest)).map (fun tail =>
            hop :: tail))))

/-- `convert_waypoints_to_route` of `db_trassenfinder.py`. -/
def convert_waypoints_to_route (waypoints : List CodeWaypoint)
    (station_data : List Station) (path_data : List Path) : Option Route :=
  (convertAux station_data path_data waypoints).map (fun ts =>
    { waypoints := waypoints, tracks_used := ts })

/-- The interval-overlap notion of the claim: `[a, b]` and `[c, d]`
intersect. -/
def intervalsOverlap (a b c d : ℚ) : Prop := a ≤ d ∧ c ≤ b

/-- The per-track test actually performed by the source: one of the two
kilometre endpoints lies within `[ks, ke]` (both bounds inclusive). -/
def endpointInRange (ks ke : ℚ) (t : Track) : Bool :=
  match t.from_km, t.to_km with
  | some f, some g => (decide (ks ≤ f) && decide (f ≤ ke)) || (decide (ks ≤ g) && decide (g ≤ ke))
  | _, _ => false

/-- Every hop tuple of a route is non-empty. -/
def allHopsNonempty (r : Route) : Bool :=
  r.tracks_used.all (fun t => !t.isEmpty)

/-! ## NameNormalizer (`normalize_name` of `importers/brouter_new.py`)

Strings are modelled as `List Char`.  The pipeline is
`lower → unidecode → delimiters → omitted tokens → whitespace collapse →
"saint" → "st"`.  The third-party `unidecode` transliteration is the
identity on ASCII input and is modelled as the identity map; Python's
`str.lower` is modelled character-wise on the ASCII range. -/

/-- The ASCII uppercase letters. -/
def upChars : List Char :=
  ['A', 'B', 'C', 'D', 'E', 'F', 'G', 'H', 'I', 'J', 'K', 'L', 'M',
   'N', 'O', 'P', 'Q', 'R', 'S', 'T', 'U', 'V', 'W', 'X', 'Y', 'Z']

/-- The ASCII lowercase letters. -/
def lowChars : List Char :=
  ['a', 'b', 'c', 'd', 'e', 'f', 'g', 'h', 'i', 'j', 'k', 'l', 'm',
   'n', 'o', 'p', 'q', 'r', 's', 't', 'u', 'v', 'w', 'x', 'y', 'z']

/-- `str.lower`, character-wise on the ASCII range. -/
def lowerChar (c : Char) : Char :=
  (((upChars.zip lowChars).find? (fun p => p.1 == c)).map (·.2)).getD c

/-- `name.lower()`. -/
def lowerStep (l : List Char) : List Char := l.map lowerChar

/-- The character class of Python's `\s` (`re.UNICODE` default). -/
def wsChars : List Char :=
  [' ', '\t', '\n', '\r', '\x0b', '\x0c', '\x1c', '\x1d', '\x1e', '\x1f',
   '\x85', '\xa0', '\u1680', '\u2000', '\u2001', '\u2002', '\u2003',
   '\u2004', '\u2005', '\u2006', '\u2007', '\u2008', '\u2009', '\u200a',
   '\u2028', '\u2029', '\u202f', '\u205f', '\u3000']

/-- Whether a character matches `\s`. -/
def wsChar (c : Char) : Bool := wsChars.contains c

/-- `delimiters.sub(" ", name)` with `delimiters = re.compile(r"[- _]")`:
each hyphen, space or underscore becomes a single space. -/
def delimStep (l : List Char) : List Char :=
  l.map (fun c => if c == '-' || c == '_' || c == ' ' then ' ' else c)

/-- `omitted_tokens.sub("", name)` with `omitted_tokens = re.compile(r"[.']")`. -/
def omitStep (l : List Char) : List Char :=
  l.filter (fun c => !(c == '.' || c == '\''))

/-- `more_than_one_space.sub(" ", name)` with pattern `\s\s+`, as a
two-mode scanner: in `true` mode the scanner is inside a matched
whitespace run (already replaced by a single space) and skips its
remaining whitespace; in `false` mode it scans normally, replacing each
maximal run of two or more whitespace characters by one space. -/
def collapseF : Bool → List Char → List Char
  | _, [] => []
  | true, c :: rest =>
    if wsChar c then collapseF true rest
    else c :: collapseF false rest
  | false, [c] => [c]
  | false, c :: c2 :: rest2 =>
    if wsChar c && wsChar c2 then ' ' :: collapseF true rest2
    else c :: collapseF false (c2 :: rest2)

/-- `more_than_one_space.sub(" ", name)`. -/
def collapseStep (l : List Char) : List Char := collapseF false l

/-- `name.replace("saint", "st")`: left-to-right, non-overlapping. -/
def saintStep : List Char → List Char
  | 's' :: 'a' :: 'i' :: 'n' :: 't' :: rest => 's' :: 't' :: saintStep rest
  | c :: rest => c :: saintStep rest
  | [] => []

/-- The `normalize_name` pipeline of `brouter_new.py`, with the
`unidecode.unidecode` transliteration stage as an abstract parameter
`uni` — the library is an external dependency, not repository code; it
maps each Unicode character to an ASCII string (the identity on ASCII
input, but possibly uppercase for non-Latin input, e.g. `№ → "No"`).
The `lru_cache` memoisation has no observable effect on the value. -/
def normalize_name_full (uni : List Char → List Char) (l : List Char) : List Char :=
  saintStep (collapseStep (omitStep (delimStep (uni (lowerStep l)))))

/-- `normalize_name` of `brouter_new.py` specialised to the identity
transliteration — exact on ASCII input, where `unidecode` passes every
character through unchanged.  The resolver evaluations below apply it to
ASCII names only. -/
def normalize_name (l : List Char) : List Char :=
  normalize_name_full (fun m => m) l

/-- Modelled from the spec: a fragment of the third-party `unidecode`
transliteration table ("transliterate to a base Latin alphabet"): ASCII
passes through unchanged (the `else` branch) and the numero sign `№`
transliterates to the two-character ASCII string `"No"`, the library's
output for it; other non-ASCII characters also pass through, which no
theorem relies on. -/
def unidecodeFrag (l : List Char) : List Char :=
  (l.map (fun c => if c = '№' then "No".toList else [c])).flatten

/-- The characters on which a transliteration stage is harmless: ASCII
and fixed by lowercasing. -/
def asciiLowerFixed (c : Char) : Bool :=
  decide (c.toNat < 128) && (lowerChar c == c)

/-! ## GeoMatcher classification (`brouter_new.py`) -/

/-- `group_from_photon_response`, keyed on the candidate's `osm_value`. -/
def group_from_photon_response (osm_value : List Char) : Option Int :=
  if osm_value = "station".toList then some 2
  else if osm_value = "stop".toList then some 5
  else if osm_value = "halt".toList then some 5
  else if osm_value = "junction".toList then some 4
  else none

/-- `largest_group`: fixed priority order 0, 1, 2, 5, 3, 6, 4. -/
def largest_group (groups : List (Option Int)) : Option Int :=
  if groups.contains (some 0) then some 0
  else if groups.contains (some 1) then some 1
  else if groups.contains (some 2) then some 2
  else if groups.contains (some 5) then some 5
  else if groups.contains (some 3) then some 3
  else if groups.contains (some 6) then some 6
  else if groups.contains (some 4) then some 4
  else none

/-! ## StationResolver (`BrouterImporterNew.import_data`, waypoint loop)

The external reverse-geocoding capability is an input: each waypoint
carries the candidate lists the rate-limited `reverse` calls would return
(`none` = the service reported no match).  Python dicts are modelled as
insertion-ordered association lists with unique keys. -/

/-- One geocoder candidate (`geopy.location.Location` with its Photon
`raw['properties']`); `name` is optional — candidates without a name exist. -/
structure Candidate where
  name : Option (List Char)
  osm_value : List Char
  countrycode : List Char
  osm_id : Nat
  latitude : ℚ
  longitude : ℚ
deriving DecidableEq

/-- One GPX waypoint together with the geocoder's responses for it:
`primary` for the railway-category query, `fallback` for the
settlement-category retry. -/
structure WaypointIn where
  latitude : ℚ
  longitude : ℚ
  primary : Option (List Candidate)
  fallback : Option (List Candidate)
deriving DecidableEq

/-- The mutable state of the waypoint-resolution loop: the live station
catalog `self.stations`, the name lookup table `self.name_to_station`, and
`waypoint_location_to_station_location`. -/
structure ResolveState where
  stations : List Station
  name_to_station : List (List Char × Station)
  waypoint_location_to_station_location : List (Location × Station)
deriving DecidableEq

/-- Dict lookup (`name in table` / `table[name]`). -/
def lookupA {α β : Type} [BEq α] (k : α) (m : List (α × β)) : Option β :=
  (m.find? (fun p => p.1 == k)).map (·.2)

/-- `dict.pop(k)`: remove the (unique) entry with key `k`. -/
def removeA {α β : Type} [BEq α] (k : α) : List (α × β) → List (α × β)
  | [] => []
  | p :: rest => if p.1 == k then rest else p :: removeA k rest

/-- `d[k] = v`: replace in place if the key exists, else append. -/
def insertA {α β : Type} [BEq α] (k : α) (v : β) : List (α × β) → List (α × β)
  | [] => [(k, v)]
  | p :: rest => if p.1 == k then (k, v) :: rest else p :: insertA k v rest

/-- `len(bytes(code, "utf-8"))`. -/
def utf8Len (l : List Char) : Nat := (l.map Char.utf8Size).sum

/-- `int("69" + str(osm_id))`: prefix the digits with the invalid country
code 69. -/
def num69 (osm_id : Nat) : Int :=
  ((69 * 10 ^ (Nat.repr osm_id).length + osm_id : Nat) : Int)

/-- The generator
`(normalize_name(station.raw['properties']['name']) for station in
possible_stations if 'name' in station.raw['properties'])`. -/
def candidateNames (cs : List Candidate) : List (List Char) :=
  (cs.filterMap (·.name)).map normalize_name

/-- The body of the waypoint-resolution loop of
`BrouterImporterNew.import_data` for one waypoint.  `flagOf` models the
`countries` table (`structures/country.py` is not in the sources): the
country flag for a country code, `none` = `KeyError`.  A skipped waypoint
(`continue`) leaves the state unchanged; `none` models an uncaught
exception or the failed `assert` on the code's byte length. -/
def processWaypoint (fallback_town : Bool) (flagOf : List Char → Option (List Char))
    (st : ResolveState) (wp : WaypointIn) : Option ResolveState :=
  let candidates? : Option (List Candidate) :=
    match wp.primary with
    | some cs => some cs
    | none => if fallback_town then wp.fallback else none
  match candidates? with
  | none => some st
  | some cs =>
    let names := candidateNames cs
    let groups := cs.map (fun c => group_from_photon_response c.osm_value)
    let wloc : Location := { latitude := wp.latitude, longitude := wp.longitude }
    match names.find? (fun nm => (lookupA nm st.name_to_station).isSome) with
    | some nm =>
      match lookupA nm st.name_to_station with
      | none => none
      | some station =>
        let n2s := removeA nm st.name_to_station
        match station.location with
        | none =>
          let station2 := { station with location := some wloc }
          some { stations := st.stations ++ [station2]
                 name_to_station := n2s
                 waypoint_location_to_station_location :=
                   insertA wloc station2 st.waypoint_location_to_station_location }
        | some _ =>
          some { stations := st.stations
                 name_to_station := n2s
                 waypoint_location_to_station_location :=
                   insertA wloc station st.waypoint_location_to_station_location }
    | none =>
      (cs.head?).bind (fun c0 =>
        (c0.name).bind (fun nm0 =>
          (flagOf c0.countrycode).bind (fun flag =>
            let code := flag ++ ['O'] ++ (Nat.repr c0.osm_id).toList
            if utf8Len code ≤ 20 then
              let station : Station :=
                { name := nm0
                  number := num69 c0.osm_id
                  codes := [code]
                  location := some { latitude := c0.latitude, longitude := c0.longitude }
                  group := largest_group groups
                  locations_path := [] }
              some { stations := st.stations ++ [station]
                     name_to_station := st.name_to_station
                     waypoint_location_to_station_location :=
                       insertA wloc station st.waypoint_location_to_station_location }
            else none)))

/-- The full waypoint-resolution loop over `gpx.waypoints`. -/
def processAll (fallback_town : Bool) (flagOf : List Char → Option (List Char)) :
    ResolveState → List WaypointIn → Option ResolveState
  | st, [] => some st
  | st, wp :: rest =>
    (processWaypoint fallback_town flagOf st wp).bind
      (fun st2 => processAll fallback_town flagOf st2 rest)

/-- Two distinct `Station` records of the list share a code. -/
def twoStationsShareCode : List Station → Bool
  | [] => false
  | s :: rest =>
    rest.any (fun t => s.codes.any (fun c => t.codes.contains c))
      || twoStationsShareCode rest

/-! ## TraceSegmenter (`BrouterImporterNew.import_data`, trace walk)

`geo.Location.distance_float` (great-circle distance in km; the `geo`
package is not in the sources) is an abstract parameter `dist`; the claims
depend only on its pointwise properties. -/

/-- The state of the single forward pass over the trace points. -/
structure TraceState where
  distance_total : ℚ
  code_waypoints : List CodeWaypoint
  track_paths : List (List Location × Station)
  last_location : Option Location
  last_stop_index : Nat
  hints : List (Location × Station)
deriving DecidableEq

/-- The inner `for waypoint_location, stop in …` loop: the first
not-yet-consumed hint within `0.08` of the current point, together with the
hint map with that entry popped. -/
def findHint (dist : Location → Location → ℚ) (p : Location) :
    List (Location × Station) → Option (Station × List (Location × Station))
  | [] => none
  | (hl, s) :: rest =>
    if dist hl p < 8 / 100 then some (s, rest)
    else
      match findHint dist p rest with
      | some (s2, rest2) => some (s2, (hl, s) :: rest2)
      | none => none

/-- The running total after one more point:
`distance_total += location.distance_float(last_location)` when a previous
location exists. -/
def nextTotal (dist : Location → Location → ℚ) (st : TraceState) (p : Location) : ℚ :=
  match st.last_location with
  | some l => st.distance_total + dist p l
  | none => st.distance_total

/-- One iteration of `for index, trackpoint in enumerate(points)`:
accumulate the distance, emit a `CodeWaypoint` and a sub-trace on a hint
match (note the source's `next_route_number=0` and the sub-trace
`points[last_stop_index:index]`).  `stop.codes[0]` is modelled as
`codes.headD []`; catalog stations always carry at least one code, and no
claim inspects the emitted code value. -/
def walkPoint (dist : Location → Location → ℚ) (points : List Location)
    (index : Nat) (st : TraceState) (p : Location) : TraceState :=
  match findHint dist p st.hints with
  | some (stop, remaining) =>
    { distance_total := nextTotal dist st p
      code_waypoints := st.code_waypoints ++
        [{ distance_from_start := nextTotal dist st p
           code := stop.codes.headD []
           is_stop := true
           next_route_number := some 0 }]
      track_paths := st.track_paths ++
        [((points.drop st.last_stop_index).take (index - st.last_stop_index), stop)]
      last_location := some p
      last_stop_index := index
      hints := remaining }
  | none =>
    { st with distance_total := nextTotal dist st p, last_location := some p }

/-- The walk over the remaining trace points, carrying the running index. -/
def walkAux (dist : Location → Location → ℚ) (points : List Location) :
    Nat → TraceState → List Location → TraceState
  | _, st, [] => st
  | index, st, p :: rest =>
    walkAux dist points (index + 1) (walkPoint dist points index st p) rest

/-- The whole trace walk of `import_data` (step 2 of the method), starting
from distance `0.0`, no emitted waypoints, no sub-traces, and the given
hint map `waypoint_location_to_station_location`. -/
def import_data_walk (dist : Location → Location → ℚ) (points : List Location)
    (hints : List (Location × Station)) : TraceState :=
  walkAux dist points 0
    { distance_total := 0
      code_waypoints := []
      track_paths := []
      last_location := none
      last_stop_index := 0
      hints := hints } points

/-- Modelled from the spec: a concrete stand-in for
`geo.Location.distance_float` (great-circle distance in kilometres; the
`geo` package is not in the sources), used only to instantiate the `dist`
parameter on concrete traces: the taxicab sum of coordinate differences.
Like the real metric it is nonnegative and vanishes exactly on equal
coordinates.  Its scale is degrees, not kilometres (1 degree of latitude
is about 111.3 km), so every concrete trace below is chosen to make each
`< 0.08` threshold comparison agree with the great-circle kilometre
metric: a hint is matched only at distance 0 (an exact coordinate hit,
0 km in any metric) or at 0.0005 degrees of latitude (about 0.056 km,
inside the 0.08 km threshold, and 0.0005 < 0.08 here too), and every
unmatched point lies whole degrees away (hundreds of kilometres,
far outside 0.08 in both metrics). -/
def dist1 (a b : Location) : ℚ :=
  |a.latitude - b.latitude| + |a.longitude - b.longitude|

/-! ## `approximate_distance_to_line` (`brouter_new.py`) -/

/-- The squared planar norm `‖start - end‖²` in latitude/longitude units;
`np.linalg.norm(start - end)` is zero exactly when this is zero. -/
def normSq (a b : Location) : ℚ :=
  (a.latitude - b.latitude) ^ 2 + (a.longitude - b.longitude) ^ 2

/-- `approximate_distance_to_line`, modelled over `ℚ`: the geodesic
kilometre distance `geoKm`, the planar norm `nrm` and `rdp.pldist` are
abstract parameters (they involve square roots and an external geodesic
computation); the division of `geoKm` by `nrm` is guarded — a zero planar
norm makes the float code compute `0.0 / 0.0 = nan`, i.e. a non-finite
result, modelled as `none`. -/
def approximate_distance_to_line (geoKm nrm : Location → Location → ℚ)
    (pld : Location → Location → Location → ℚ)
    (point start stop : Location) : Option ℚ :=
  if nrm start stop = 0 then none
  else some (pld point start stop * (geoKm start stop / nrm start stop))

/-! ## Auxiliary predicates used by the theorems -/

/-- A character predicate holds everywhere in a list. -/
@[reducible] def charInv (P : Char → Bool) (l : List Char) : Prop :=
  ∀ c ∈ l, P c = true

/-- The head character, if any, is whitespace. -/
def headWs : List Char → Bool
  | [] => false
  | c :: _ => wsChar c

/-- No two adjacent characters are both whitespace. -/
def noWsPairB : List Char → Bool
  | c1 :: c2 :: rest => (!(wsChar c1 && wsChar c2)) && noWsPairB (c2 :: rest)
  | _ => true

/-! ## Concrete instances used by the per-claim theorems -/

/-- A track of route 100 with both kilometre bounds (the stored length of a
catalog track is input data never read by the code under test; it is set to
0 here). -/
def mkTrack100 (f t : ℚ) (el : Bool) (kd : Int) : Track :=
  { route_number := some 100, electrified := el, kind := kd
    from_km := some f, to_km := some t, length := 0 }

/-- A catalog station with a one-character code and given path locations. -/
def stKm (nm : Char) (num : Int) (locs : List PathLocation) : Station :=
  { name := [nm], number := num, codes := [[nm]], location := none
    group := none, locations_path := locs }

/-- A waypoint with a one-character code and a next-hop route number. -/
def cwp (c : Char) (rn : Option Nat) : CodeWaypoint :=
  { distance_from_start := 0, code := [c], is_stop := true, next_route_number := rn }

/-- Stations `a` (km 5.0) and `b` (km 12.0) on route 100. -/
def kmStations : List Station := [stKm 'a' 1 [⟨100, 5⟩], stKm 'b' 2 [⟨100, 12⟩]]

/-- The two-waypoint trip `a → b` over route 100. -/
def kmWaypoints : List CodeWaypoint := [cwp 'a' (some 100), cwp 'b' none]

/-- A route-100 path whose single track `[100, 200]` lies beyond both
stations. -/
def c1cexPaths : List Path := [{ tracks := [mkTrack100 100 200 true 1], route_numer := 100 }]

/-- A route-100 path with one track `[4, 6]` overlapping `[5, 12]`. -/
def c1witPaths : List Path := [{ tracks := [mkTrack100 4 6 true 1], route_numer := 100 }]

/-- The route produced for `kmWaypoints` over `c1witPaths`. -/
def c1witRoute : Route := { waypoints := kmWaypoints, tracks_used := [[mkTrack100 4 6 true 1]] }

/-- Route-100 tracks for the C2 scenario: electrified values
`[false, true, false, false]` and kinds `[1, 3, 1, 1]`, so the route-wide
median-high values (`false`, `1`) differ from the last resolved track
`c2t2` (`true`, `3`). -/
def c2t1 : Track := mkTrack100 0 10 false 1

/-- Second C2 track — the last one resolved for hop 1. -/
def c2t2 : Track := mkTrack100 10 20 true 3

/-- Third C2 track. -/
def c2t3 : Track := mkTrack100 20 30 false 1

/-- Fourth C2 track. -/
def c2t4 : Track := mkTrack100 30 40 false 1

/-- The C2 path catalog. -/
def c2paths : List Path := [{ tracks := [c2t1, c2t2, c2t3, c2t4], route_numer := 100 }]

/-- C2 stations: `a` (km 5), `b` (km 12), `c` (no kilometre position). -/
def c2stations : List Station := [stKm 'a' 1 [⟨100, 5⟩], stKm 'b' 2 [⟨100, 12⟩], stKm 'c' 3 []]

/-- C2 waypoints: `a → b → c`, both hops declared on route 100. -/
def c2waypoints : List CodeWaypoint := [cwp 'a' (some 100), cwp 'b' (some 100), cwp 'c' none]

/-- The track the code synthesizes for hop `b → c`: the route-wide
median-high electrification/kind, not the carried-over values of `c2t2`. -/
def c2synth : Track :=
  { route_number := some 100, electrified := false, kind := 1
    from_km := none, to_km := none, length := 0 }

/-- A route-100 path with one track `[0, 15]` strictly containing `[5, 12]`. -/
def c3cexPaths : List Path := [{ tracks := [mkTrack100 0 15 true 1], route_numer := 100 }]

/-- The spec's scenario path: tracks `[0,6]`, `[6,10]`, `[10,15]` on route 100. -/
def c3specPath : Path :=
  { tracks := [mkTrack100 0 6 true 1, mkTrack100 6 10 false 1, mkTrack100 10 15 false 1]
    route_numer := 100 }

/-- C4 counterexample waypoints: code `x` has no catalog entry. -/
def c4cexWaypoints : List CodeWaypoint := [cwp 'x' (some 100), cwp 'b' none]

/-- C4 witness waypoints: all codes resolve, no hop has a usable route
number. -/
def c4witWaypoints : List CodeWaypoint := [cwp 'a' none, cwp 'b' (some 999)]

/-- A geocoder candidate named `foo`, OSM id 1, country `DE`. -/
def c5cand : Candidate :=
  { name := some "foo".toList, osm_value := "station".toList
    countrycode := "DE".toList, osm_id := 1, latitude := 0, longitude := 0 }

/-- The `countries` flag table restricted to `DE` (modelled from the spec:
`structures/country.py` is not in the sources). -/
def flagDE (cc : List Char) : Option (List Char) :=
  if cc = "DE".toList then some "🇩🇪".toList else none

/-- First C5 waypoint (at latitude 0). -/
def c5wp1 : WaypointIn := { latitude := 0, longitude := 0, primary := some [c5cand], fallback := none }

/-- Second C5 waypoint (at latitude 1), same geocoder candidate. -/
def c5wp2 : WaypointIn := { latitude := 1, longitude := 0, primary := some [c5cand], fallback := none }

/-- An existing catalog station named `foo` without a location. -/
def c8st : Station :=
  { name := "foo".toList, number := 7, codes := [['F']], location := none
    group := none, locations_path := [] }

/-- Initial resolver state: `c8st` in the catalog and in the name lookup
table. -/
def c8init : ResolveState :=
  { stations := [c8st], name_to_station := [("foo".toList, c8st)]
    waypoint_location_to_station_location := [] }

/-- A waypoint at `(0, 0)` whose candidate matches `c8st` by name. -/
def c8wp : WaypointIn := { latitude := 0, longitude := 0, primary := some [c5cand], fallback := none }

/-- `c8st` with the waypoint's location attached. -/
def c8enriched : Station := { c8st with location := some { latitude := 0, longitude := 0 } }

/-- A hint station with code `a`. -/
def stHint1 : Station :=
  { name := "h1".toList, number := 1, codes := [['a']], location := none
    group := none, locations_path := [] }

/-- A hint station with code `b`. -/
def stHint2 : Station :=
  { name := "h2".toList, number := 2, codes := [['b']], location := none
    group := none, locations_path := [] }

/-- C6 trace: the first point `(5, 5)` is far from every hint (hundreds of
kilometres), the second point `(0, 0)` is an exact hit — so trace points
precede the first match. -/
def c6pts : List Location := [⟨5, 5⟩, ⟨0, 0⟩]

/-- The single C6 hint, exactly at the second trace point. -/
def c6hints : List (Location × Station) := [(⟨0, 0⟩, stHint1)]

/-- C7 trace: the same point twice (a GPS trace may repeat points). -/
def c7pts : List Location := [⟨0, 0⟩, ⟨0, 0⟩]

/-- Two C7 hints within 0.08 of both trace points: one exactly at the
point (0 km), one 0.0005 degrees of latitude away (about 0.056 km
great-circle, inside the 0.08 km threshold; 0.0005 < 0.08 under `dist1`
as well, so the match decisions agree with the real metric). -/
def c7hints : List (Location × Station) :=
  [(⟨0, 0⟩, stHint1), (⟨5/10000, 0⟩, stHint2)]

/-! # Theorems -/

/-! ## TrackSegmentResolver / RouteAssembler (claims C1–C4) -/

theorem overlapB_eq_endpoint (ks ke : ℚ) (t : Track) (f g : ℚ)
    (hf : t.from_km = some f) (hg : t.to_km = some g) :
    overlapB ks ke t = some (endpointInRange ks ke t) := by
  by_cases h1 : ks ≤ f <;> by_cases h2 : f ≤ ke <;>
    by_cases h3 : ks ≤ g <;> by_cases h4 : g ≤ ke <;>
      simp [overlapB, chain3, hf, hg, endpointInRange, h1, h2, h3, h4]

theorem collectTracks_eq_filter (ks ke : ℚ) :
    ∀ ts : List Track, (∀ t ∈ ts, t.from_km.isSome ∧ t.to_km.isSome) →
      collectTracks ks ke ts = some (ts.filter (endpointInRange ks ke))
  | [], _ => by simp [collectTracks]
  | t :: rest, h => by
    obtain ⟨hf, hg⟩ := h t (by simp)
    obtain ⟨f, hf⟩ := Option.isSome_iff_exists.mp hf
    obtain ⟨g, hg⟩ := Option.isSome_iff_exists.mp hg
    have ih := collectTracks_eq_filter ks ke rest (fun x hx => h x (by simp [hx]))
    rw [collectTracks, overlapB_eq_endpoint ks ke t f g hf hg, ih]
    by_cases hb : endpointInRange ks ke t = true
    · simp [List.filter_cons, hb]
    · simp only [Bool.not_eq_true] at hb
      simp [List.filter_cons, hb]

theorem convertAux_length (sd : List Station) (pd : List Path) :
    ∀ (w : List CodeWaypoint) (ts : List (List Track)),
      convertAux sd pd w = some ts → ts.length = w.length - 1
  | [], ts, h => by
    simp only [convertAux, Option.some_inj] at h
    simp [← h]
  | [w], ts, h => by
    simp only [convertAux, Option.some_inj] at h
    simp [← h]
  | w :: w2 :: rest, ts, h => by
    simp only [convertAux, Option.bind_eq_some, Option.map_eq_some'] at h
    obtain ⟨s1, hs1, s2, hs2, hop, hhop, tail, htail, rfl⟩ := h
    have ih := convertAux_length sd pd (w2 :: rest) tail htail
    simp only [List.length_cons] at ih ⊢
    omega

/-- Claim C1 (amended): whenever `convert_waypoints_to_route` completes, the
track-tuple list has exactly `N - 1` entries, one per consecutive waypoint
pair, and a one-waypoint input yields an empty hop list, not an error; the
entries are, however, not always non-empty (see the counterexample). -/
theorem claim_C1_amended (w : List CodeWaypoint) (sd : List Station) (pd : List Path)
    (r : Route) (h : convert_waypoints_to_route w sd pd = some r) :
    r.tracks_used.length = w.length - 1 ∧ (w.length = 1 → r.tracks_used = []) := by
  simp only [convert_waypoints_to_route, Option.map_eq_some'] at h
  obtain ⟨ts, hts, rfl⟩ := h
  have hlen := convertAux_length sd pd w ts hts
  refine ⟨hlen, fun h1 => ?_⟩
  have h0 : ts.length = 0 := by omega
  simpa using List.length_eq_zero.mp h0

/-- Witness for C1 (amended): a concrete conversion that completes, with
`2 - 1 = 1` hop entry. -/
theorem claim_C1_witness :
    convert_waypoints_to_route kmWaypoints kmStations c1witPaths = some c1witRoute ∧
    c1witRoute.tracks_used.length = kmWaypoints.length - 1 :=
  ⟨by decide, (claim_C1_amended kmWaypoints kmStations c1witPaths c1witRoute (by decide)).1⟩

/-- Counterexample to C1 as stated: all waypoint codes resolve, yet the hop
between the stations at km 5 and km 12 gets an *empty* track tuple, because
the only track of the route (`[100, 200]`) has neither endpoint inside
`[5, 12]` — no placeholder is synthesized in this branch. -/
theorem claim_C1_counterexample :
    (convert_waypoints_to_route kmWaypoints kmStations c1cexPaths).map allHopsNonempty =
      some false ∧
    kmWaypoints.all (fun x => (codesToStation kmStations x.code).isSome) = true :=
  ⟨by decide, by decide⟩

/-- Claim C2 (code bug, evaluation at the failing input): hop 1 (`a → b`)
resolves tracks `[c2t1, c2t2]`, so the last successfully resolved track on
route 100 is `c2t2` (`electrified = true`, `kind = 3`, `to_km = 20`); yet
the synthesized track for hop 2 (`b → c`, kilometre position missing)
carries the route-wide median-high values (`electrified = false`,
`kind = 1`) and `from_km = none`: the source passes the hop-local
`tracks_between_waypoints` (always `[]` at that point) instead of the
tracks resolved so far. -/
theorem claim_C2_evaluation :
    convert_waypoints_to_route c2waypoints c2stations c2paths =
      some { waypoints := c2waypoints, tracks_used := [[c2t1, c2t2], [c2synth]] } ∧
    c2t2.electrified = true ∧ c2t2.kind = 3 ∧ c2t2.to_km = some 20 ∧
    c2synth.electrified = false ∧ c2synth.kind = 1 ∧ c2synth.from_km = none :=
  ⟨by decide, by decide, by decide, by decide, by decide, by decide, by decide⟩

/-- Claim C3 (amended): when the hop's route number is in the catalog and
both stations expose a kilometre position on it, the hop's track tuple is
exactly the ordered subset of the route's tracks having `from_km` or
`to_km` inside `[km_start, km_end]` (inclusive); a track whose interval
merely overlaps the range without an endpoint inside it is *not*
collected. -/
theorem claim_C3_amended (path_data : List Path) (w w2 : CodeWaypoint)
    (station next_station : Station) (n : Nat) (p : Path) (s0 t0 : ℚ)
    (stail ttail : List ℚ)
    (hw : w.next_route_number = some n) (hn : n ≠ 0)
    (hp : routeLookup path_data n = some p)
    (hs : (station.locations_path.filter (fun l => l.route_number == n)).map (·.lfd_km) =
      s0 :: stail)
    (ht : (next_station.locations_path.filter (fun l => l.route_number == n)).map (·.lfd_km) =
      t0 :: ttail)
    (hk : ∀ t ∈ p.tracks, t.from_km.isSome ∧ t.to_km.isSome) :
    hopFor path_data w w2 station next_station =
      some (p.tracks.filter (endpointInRange (min s0 t0) (max s0 t0))) := by
  have hs0 : station.locations_path ≠ [] := by
    intro h0
    rw [h0] at hs
    simp at hs
  have ht0 : next_station.locations_path ≠ [] := by
    intro h0
    rw [h0] at ht
    simp at ht
  rw [hopFor, hw]
  simp only [Option.getD_some]
  rw [if_pos (by simp [truthyRoute, hn, hp]), hp]
  simp only [Option.some_bind]
  rw [if_pos ⟨hs0, ht0⟩, hs, ht]
  exact collectTracks_eq_filter _ _ p.tracks hk

/-- Witness for C3 (amended), the spec's own scenario: stations at km 5 and
km 12, tracks `[0,6]`, `[6,10]`, `[10,15]` — the filter keeps all three. -/
theorem claim_C3_witness :
    hopFor [c3specPath] (cwp 'a' (some 100)) (cwp 'b' none)
        (stKm 'a' 1 [⟨100, 5⟩]) (stKm 'b' 2 [⟨100, 12⟩]) =
      some (c3specPath.tracks.filter (endpointInRange (min 5 12) (max 5 12))) ∧
    c3specPath.tracks.filter (endpointInRange (min 5 12) (max 5 12)) = c3specPath.tracks :=
  ⟨claim_C3_amended [c3specPath] _ _ _ _ 100 c3specPath 5 12 [] []
      rfl (by decide) (by decide) (by decide) (by decide) (by decide),
    by decide⟩

/-- Counterexample to C3 as stated: the single track `[0, 15]` *overlaps*
`[5, 12]` (inclusively, at either bound), yet the hop's track tuple is
empty — the code only tests whether one of the track's endpoints lies
inside the station range. -/
theorem claim_C3_counterexample :
    (convert_waypoints_to_route kmWaypoints kmStations c3cexPaths).map (fun r => r.tracks_used) =
      some [[]] ∧
    intervalsOverlap 0 15 5 12 :=
  ⟨by decide, by constructor <;> norm_num⟩

theorem hopFor_invalid (pd : List Path) (w w2 : CodeWaypoint) (s1 s2 : Station)
    (h : truthyRoute w.next_route_number = false ∨
      routeLookup pd (w.next_route_number.getD 0) = none) :
    hopFor pd w w2 s1 s2 = some [invalid_track w.next_route_number] := by
  rw [hopFor, if_neg]
  rcases h with h | h <;> simp [h]

theorem convertAux_total_of_placeholder (sd : List Station) (pd : List Path) :
    ∀ w : List CodeWaypoint,
      (∀ x ∈ w, (codesToStation sd x.code).isSome) →
      (∀ x ∈ w, truthyRoute x.next_route_number = false ∨
        routeLookup pd (x.next_route_number.getD 0) = none) →
      (convertAux sd pd w).isSome
  | [], _, _ => by simp [convertAux]
  | [w], _, _ => by simp [convertAux]
  | w :: w2 :: rest, h1, h2 => by
    obtain ⟨s1, hs1⟩ := Option.isSome_iff_exists.mp (h1 w (by simp))
    obtain ⟨s2, hs2⟩ := Option.isSome_iff_exists.mp (h1 w2 (by simp))
    have ih := convertAux_total_of_placeholder sd pd (w2 :: rest)
      (fun x hx => h1 x (by simp [List.mem_cons] at hx ⊢; tauto))
      (fun x hx => h2 x (by simp [List.mem_cons] at hx ⊢; tauto))
    obtain ⟨tail, htail⟩ := Option.isSome_iff_exists.mp ih
    rw [convertAux, hs1, hs2]
    simp [hopFor_invalid pd w w2 s1 s2 (h2 w (by simp)), htail]

/-- Claim C4 (amended): a missing or unknown *route number* never aborts
the conversion — every hop degrades to a placeholder track and the run
completes — provided every waypoint's station code resolves in the
catalog; a waypoint code absent from the catalog, however, raises a
`KeyError` and aborts the run (see the counterexample). -/
theorem claim_C4_amended (w : List CodeWaypoint) (sd : List Station) (pd : List Path)
    (h1 : ∀ x ∈ w, (codesToStation sd x.code).isSome)
    (h2 : ∀ x ∈ w, truthyRoute x.next_route_number = false ∨
      routeLookup pd (x.next_route_number.getD 0) = none) :
    (convert_waypoints_to_route w sd pd).isSome := by
  obtain ⟨ts, hts⟩ := Option.isSome_iff_exists.mp
    (convertAux_total_of_placeholder sd pd w h1 h2)
  simp [convert_waypoints_to_route, hts]

/-- Witness for C4 (amended): codes resolve, one hop has no route number
and the other an unknown one (999) — the conversion completes. -/
theorem claim_C4_witness :
    (convert_waypoints_to_route c4witWaypoints kmStations []).isSome :=
  claim_C4_amended c4witWaypoints kmStations [] (by decide) (by decide)

/-- Counterexample to C4 as stated: a waypoint whose station code (`x`) has
no entry in the station catalog makes `convert_waypoints_to_route` abort
with an uncaught `KeyError` (`codes_to_station[waypoint.code]`) instead of
skipping the waypoint. -/
theorem claim_C4_counterexample :
    convert_waypoints_to_route c4cexWaypoints kmStations [] = none ∧
    codesToStation kmStations (cwp 'x' (some 100)).code = none :=
  ⟨by decide, by decide⟩

/-! ## StationResolver (claims C5 and C8) -/

/-- Claim C5 (code bug, evaluation at the failing input): starting from an
empty catalog, two distinct waypoints that resolve to the same unmatched
geocoder candidate (`foo`, OSM id 1) each synthesize a new station with the
code `🇩🇪O1` — the synthesized station is deliberately not added to the
name lookup table, so the second waypoint cannot bind to the first's
station and the catalog ends up with two records sharing a code. -/
theorem claim_C5_evaluation :
    (processAll false flagDE
        { stations := [], name_to_station := []
          waypoint_location_to_station_location := [] }
        [c5wp1, c5wp2]).map
      (fun st2 => (twoStationsShareCode st2.stations, st2.stations.map (·.codes))) =
    some (true, [["🇩🇪O1".toList], ["🇩🇪O1".toList]]) := by decide

/-- Claim C8 (amended): when an existing catalog station lacking a
`Location` is bound to a waypoint, a replacement record with the location
attached is constructed and *appended* to the catalog, and the station's
entry is removed from the *name lookup table*; the stale record is **not**
removed from the catalog. -/
theorem claim_C8_amended (fallback_town : Bool) (flagOf : List Char → Option (List Char))
    (st : ResolveState) (wp : WaypointIn) (cs : List Candidate) (nm : List Char) (s : Station)
    (hp : wp.primary = some cs)
    (hfind : (candidateNames cs).find? (fun x => (lookupA x st.name_to_station).isSome) = some nm)
    (hlook : lookupA nm st.name_to_station = some s)
    (hloc : s.location = none) :
    processWaypoint fallback_town flagOf st wp =
      some { stations := st.stations ++
               [{ s with location := some { latitude := wp.latitude, longitude := wp.longitude } }]
             name_to_station := removeA nm st.name_to_station
             waypoint_location_to_station_location :=
               insertA { latitude := wp.latitude, longitude := wp.longitude }
                 { s with location := some { latitude := wp.latitude, longitude := wp.longitude } }
                 st.waypoint_location_to_station_location } := by
  simp only [processWaypoint, hp, hfind, hlook, hloc]

/-- Witness for C8 (amended): the concrete enrichment step — `c8st` is
bound via its name, the enriched copy is appended, the lookup-table entry
is popped. -/
theorem claim_C8_witness :
    processWaypoint false flagDE c8init c8wp =
      some { stations := [c8st] ++ [c8enriched]
             name_to_station := removeA "foo".toList [("foo".toList, c8st)]
             waypoint_location_to_station_location := insertA ⟨0, 0⟩ c8enriched [] } := by
  exact claim_C8_amended false flagDE c8init c8wp [c5cand] "foo".toList c8st
    rfl (by decide) (by decide) rfl

/-- Counterexample to C8 as stated: after the enrichment step the *old*
location-less record `c8st` is still a member of the owning collection
(`stations`), alongside the enriched copy — the claim's "the old record is
removed from that collection" is false (only the name lookup table loses
the entry). -/
theorem claim_C8_counterexample :
    (processWaypoint false flagDE c8init c8wp).map
        (fun st2 => (decide (c8st ∈ st2.stations), decide (c8enriched ∈ st2.stations),
          st2.name_to_station.length)) =
      some (true, true, 0) := by decide

/-! ## TraceSegmenter (claims C6 and C7) -/

theorem findHint_length (dist : Location → Location → ℚ) (p : Location) :
    ∀ (hs : List (Location × Station)) (s : Station) (rest : List (Location × Station)),
      findHint dist p hs = some (s, rest) → rest.length + 1 = hs.length
  | [], s, rest, h => by simp [findHint] at h
  | (hl, st0) :: tl, s, rest, h => by
    rw [findHint] at h
    by_cases hd : dist hl p < 8 / 100
    · rw [if_pos hd] at h
      cases h
      simp
    · rw [if_neg hd] at h
      cases hht : findHint dist p tl with
      | none => simp [hht] at h
      | some pr =>
        obtain ⟨s2, rest2⟩ := pr
        simp only [hht, Option.some.injEq, Prod.mk.injEq] at h
        obtain ⟨rfl, rfl⟩ := h
        have ih := findHint_length dist p tl _ _ hht
        simp only [List.length_cons]
        omega

theorem walkPoint_counts (dist : Location → Location → ℚ) (points : List Location)
    (i : Nat) (st : TraceState) (p : Location) :
    (walkPoint dist points i st p).track_paths.length + st.code_waypoints.length =
      (walkPoint dist points i st p).code_waypoints.length + st.track_paths.length ∧
    (walkPoint dist points i st p).code_waypoints.length +
        (walkPoint dist points i st p).hints.length =
      st.code_waypoints.length + st.hints.length := by
  rw [walkPoint]
  cases hft : findHint dist p st.hints with
  | none => simp; omega
  | some pr =>
    obtain ⟨s, remaining⟩ := pr
    have hlen := findHint_length dist p st.hints s remaining hft
    simp only [List.length_append, List.length_cons, List.length_nil]
    omega

theorem walkAux_counts (dist : Location → Location → ℚ) (points : List Location) :
    ∀ (rem : List Location) (i : Nat) (st : TraceState),
      ((walkAux dist points i st rem).track_paths.length + st.code_waypoints.length =
        (walkAux dist points i st rem).code_waypoints.length + st.track_paths.length) ∧
      ((walkAux dist points i st rem).code_waypoints.length +
          (walkAux dist points i st rem).hints.length =
        st.code_waypoints.length + st.hints.length)
  | [], i, st => by simp [walkAux]; omega
  | p :: rest, i, st => by
    rw [walkAux]
    have hstep := walkPoint_counts dist points i st p
    have ih := walkAux_counts dist points rest (i + 1) (walkPoint dist points i st p)
    omega

/-- Claim C6 (amended): after the trace walk, the number of recorded
sub-trace segments (`track_paths`) equals the number of matched station
hints — one segment per emitted `CodeWaypoint`, with the leading portion of
the trace folded into the *first* matched segment; there is no extra
leading entry. -/
theorem claim_C6_amended (dist : Location → Location → ℚ) (points : List Location)
    (hints : List (Location × Station)) :
    (import_data_walk dist points hints).track_paths.length =
      (import_data_walk dist points hints).code_waypoints.length ∧
    (import_data_walk dist points hints).code_waypoints.length +
        (import_data_walk dist points hints).hints.length = hints.length := by
  have h := walkAux_counts dist points points 0
    { distance_total := 0, code_waypoints := [], track_paths := []
      last_location := none, last_stop_index := 0, hints := hints }
  simp only [List.length_nil] at h
  rw [import_data_walk]
  omega

/-- Counterexample to C6 as stated: on a trace whose first point `(5, 5)`
lies far from the single hint and whose second point `(0, 0)` matches it,
points *do* precede the first match, yet the walk records exactly one
sub-trace segment (equal to the matched-hint count), not `1 + 1 = 2`; the
recorded segment's point list is `[(5, 5)]` — the leading portion of the
trace is folded into the first matched segment instead of forming the
additional leading segment the claim predicts. -/
theorem claim_C6_counterexample :
    (import_data_walk dist1 c6pts c6hints).track_paths.length = 1 ∧
    c6hints.length - (import_data_walk dist1 c6pts c6hints).hints.length = 1 ∧
    (import_data_walk dist1 c6pts c6hints).track_paths.map Prod.fst =
      [[⟨5, 5⟩]] ∧
    (1 : Nat) ≠ 1 + 1 := by
  refine ⟨?_, ?_, ?_, by decide⟩ <;> with_unfolding_all decide

theorem le_nextTotal (dist : Location → Location → ℚ)
    (hd : ∀ a b, 0 ≤ dist a b) (st : TraceState) (p : Location) :
    st.distance_total ≤ nextTotal dist st p := by
  rw [nextTotal]
  cases st.last_location with
  | none => exact le_refl _
  | some l => exact le_add_of_nonneg_right (hd p l)

theorem walkPoint_mono (dist : Location → Location → ℚ)
    (hd : ∀ a b, 0 ≤ dist a b) (points : List Location) (i : Nat)
    (st : TraceState) (p : Location)
    (hb : ∀ x ∈ st.code_waypoints, x.distance_from_start ≤ st.distance_total)
    (hsorted : (st.code_waypoints.map (·.distance_from_start)).Pairwise (· ≤ ·)) :
    (∀ x ∈ (walkPoint dist points i st p).code_waypoints,
        x.distance_from_start ≤ (walkPoint dist points i st p).distance_total) ∧
    ((walkPoint dist points i st p).code_waypoints.map (·.distance_from_start)).Pairwise
      (· ≤ ·) := by
  have hle := le_nextTotal dist hd st p
  rw [walkPoint]
  cases hft : findHint dist p st.hints with
  | none =>
    exact ⟨fun x hx => le_trans (hb x hx) hle, hsorted⟩
  | some pr =>
    obtain ⟨s, remaining⟩ := pr
    constructor
    · intro x hx
      simp only [List.mem_append, List.mem_singleton] at hx
      rcases hx with hx | rfl
      · exact le_trans (hb x hx) hle
      · exact le_refl _
    · simp only [List.map_append, List.map_cons, List.map_nil]
      rw [List.pairwise_append]
      refine ⟨hsorted, by simp, ?_⟩
      intro a ha b hbm
      simp only [List.mem_map] at ha
      obtain ⟨x, hx, rfl⟩ := ha
      simp only [List.mem_singleton] at hbm
      subst hbm
      exact le_trans (hb x hx) hle

theorem walkAux_mono (dist : Location → Location → ℚ)
    (hd : ∀ a b, 0 ≤ dist a b) (points : List Location) :
    ∀ (rem : List Location) (i : Nat) (st : TraceState),
      (∀ x ∈ st.code_waypoints, x.distance_from_start ≤ st.distance_total) →
      ((st.code_waypoints.map (·.distance_from_start)).Pairwise (· ≤ ·)) →
      ((walkAux dist points i st rem).code_waypoints.map (·.distance_from_start)).Pairwise
        (· ≤ ·)
  | [], i, st, hb, hsorted => by simpa [walkAux] using hsorted
  | p :: rest, i, st, hb, hsorted => by
    rw [walkAux]
    obtain ⟨hb2, hsorted2⟩ := walkPoint_mono dist hd points i st p hb hsorted
    exact walkAux_mono dist hd points rest (i + 1) (walkPoint dist points i st p) hb2 hsorted2

/-- Claim C7 (amended): within one trace, the emitted `CodeWaypoint`
sequence is *non-decreasing* in `distance_from_start` (for any nonnegative
distance function): the accumulated distance never shrinks, but it can
stall — repeated trace points yield equal distances, so the sequence is
not strictly increasing in general. -/
theorem claim_C7_amended (dist : Location → Location → ℚ) (points : List Location)
    (hints : List (Location × Station)) (hd : ∀ a b, 0 ≤ dist a b) :
    ((import_data_walk dist points hints).code_waypoints.map
      (·.distance_from_start)).Pairwise (· ≤ ·) := by
  rw [import_data_walk]
  exact walkAux_mono dist hd points points 0
    { distance_total := 0, code_waypoints := [], track_paths := []
      last_location := none, last_stop_index := 0, hints := hints }
    (by simp) (by simp)

/-- Witness for C7 (amended): the taxicab-degree distance is nonnegative,
and on the concrete two-point trace the emitted distances are pairwise
`≤`. -/
theorem claim_C7_witness :
    ((import_data_walk dist1 c7pts c7hints).code_waypoints.map
      (·.distance_from_start)).Pairwise (· ≤ ·) :=
  claim_C7_amended dist1 c7pts c7hints
    (fun a b => add_nonneg (abs_nonneg _) (abs_nonneg _))

/-- Counterexample to C7 as stated: a trace repeating the same point, with
two hints within the 0.08 threshold of it (an exact hit, and one about
0.056 km away — both inside 0.08 km under the great-circle metric as
well), emits two `CodeWaypoint`s at the *same* accumulated distance (0
and 0, the repeated point contributing zero distance in any metric) — the
sequence is not strictly increasing. -/
theorem claim_C7_counterexample :
    ¬ (((import_data_walk dist1 c7pts c7hints).code_waypoints.map
      (·.distance_from_start)).Pairwise (· < ·)) := by with_unfolding_all decide

/-! ## NameNormalizer idempotence (claim C9) -/

-- ## basic character lemmas

theorem map_fix {f : Char → Char} : ∀ l : List Char, (∀ c ∈ l, f c = c) → l.map f = l
  | [], _ => rfl
  | c :: rest, h => by
    rw [List.map_cons, h c (by simp), map_fix rest (fun x hx => h x (by simp [hx]))]

theorem lowerChar_fix_low : ∀ c ∈ lowChars, lowerChar c = c := by decide

theorem lowerChar_mem_or (c : Char) : lowerChar c = c ∨ lowerChar c ∈ lowChars := by
  unfold lowerChar
  cases hfind : (upChars.zip lowChars).find? (fun p => p.1 == c) with
  | none => left; simp
  | some pr =>
    right
    have hm := List.mem_of_find?_eq_some hfind
    simpa using (List.of_mem_zip hm).2

theorem lowerChar_idem (c : Char) : lowerChar (lowerChar c) = lowerChar c := by
  rcases lowerChar_mem_or c with h | h
  · rw [h, h]
  · exact lowerChar_fix_low _ h

theorem charInv_lowerStep (l : List Char) :
    charInv (fun c => lowerChar c == c) (lowerStep l) := by
  intro c hc
  simp only [lowerStep, List.mem_map] at hc
  obtain ⟨x, hx, rfl⟩ := hc
  simp [lowerChar_idem]

-- ## membership lemmas for the stages

theorem mem_delimStep {c : Char} {l : List Char} (h : c ∈ delimStep l) :
    c = ' ' ∨ c ∈ l := by
  simp only [delimStep, List.mem_map] at h
  obtain ⟨x, hx, hfx⟩ := h
  by_cases hb : (x == '-' || x == '_' || x == ' ') = true
  · left; rw [← hfx]; simp [hb]
  · right; rw [← hfx]; simp only [hb, if_false]; simpa using hx

theorem mem_omitStep {c : Char} {l : List Char} (h : c ∈ omitStep l) : c ∈ l :=
  List.mem_of_mem_filter h

theorem mem_collapseF {c : Char} : ∀ (b : Bool) (l : List Char),
    c ∈ collapseF b l → c = ' ' ∨ c ∈ l := by
  intro b l
  induction b, l using collapseF.induct with
  | case1 x => simp [collapseF]
  | case2 c1 rest hws ih =>
    rw [collapseF, if_pos hws]
    intro h
    rcases ih h with h | h
    · exact Or.inl h
    · exact Or.inr (by simp [h])
  | case3 c1 rest hws ih =>
    rw [collapseF, if_neg hws]
    intro h
    rcases List.mem_cons.mp h with rfl | h
    · exact Or.inr (by simp)
    · rcases ih h with h | h
      · exact Or.inl h
      · exact Or.inr (by simp [h])
  | case4 c1 =>
    intro h
    simp [collapseF] at h
    exact Or.inr (by simp [h])
  | case5 c1 c2 rest2 hws ih =>
    rw [collapseF, if_pos hws]
    intro h
    rcases List.mem_cons.mp h with rfl | h
    · exact Or.inl rfl
    · rcases ih h with h | h
      · exact Or.inl h
      · exact Or.inr (by simp [h])
  | case6 c1 c2 rest2 hws ih =>
    rw [collapseF, if_neg hws]
    intro h
    rcases List.mem_cons.mp h with rfl | h
    · exact Or.inr (by simp)
    · rcases ih h with h | h
      · exact Or.inl h
      · exact Or.inr (List.mem_cons_of_mem c1 h)

theorem saintStep_cons_ne (c : Char) (rest : List Char)
    (h : ∀ rest1, c = 's' → rest = 'a' :: 'i' :: 'n' :: 't' :: rest1 → False) :
    saintStep (c :: rest) = c :: saintStep rest := by
  rw [saintStep.eq_def]
  split
  · next rest1 heq =>
    injection heq with h1 h2
    exact (h rest1 h1 h2).elim
  · rename_i heq
    injection heq with h1 h2
    subst h1
    subst h2
    rfl
  · rename_i heq
    simp at heq

theorem mem_saintStep {c : Char} : ∀ l : List Char,
    c ∈ saintStep l → c = 's' ∨ c = 't' ∨ c ∈ l := by
  intro l
  induction l using saintStep.induct with
  | case1 rest ih =>
    rw [saintStep]
    intro h
    rcases List.mem_cons.mp h with rfl | h
    · exact Or.inl rfl
    rcases List.mem_cons.mp h with rfl | h
    · exact Or.inr (Or.inl rfl)
    rcases ih h with h | h | h
    · exact Or.inl h
    · exact Or.inr (Or.inl h)
    · exact Or.inr (Or.inr (by simp [h]))
  | case2 c1 rest hne ih =>
    rw [saintStep_cons_ne c1 rest hne]
    intro h
    rcases List.mem_cons.mp h with rfl | h
    · exact Or.inr (Or.inr (by simp))
    rcases ih h with h | h | h
    · exact Or.inl h
    · exact Or.inr (Or.inl h)
    · exact Or.inr (Or.inr (by simp [h]))
  | case3 => intro h; simp [saintStep] at h

-- ## fix lemmas for each stage

theorem lowerStep_fix (l : List Char) (h : charInv (fun c => lowerChar c == c) l) :
    lowerStep l = l :=
  map_fix l (fun c hc => by simpa using h c hc)

theorem delimStep_fix (l : List Char)
    (h : charInv (fun c => !(c == '-' || c == '_')) l) : delimStep l = l := by
  apply map_fix
  intro c hc
  have hc2 := h c hc
  simp only [Bool.not_eq_true', Bool.or_eq_false_iff, beq_eq_false_iff_ne, ne_eq] at hc2
  by_cases hsp : c = ' '
  · simp [hsp]
  · simp [hc2.1, hc2.2, hsp]

theorem omitStep_fix (l : List Char)
    (h : charInv (fun c => !(c == '.' || c == '\'')) l) : omitStep l = l :=
  List.filter_eq_self.mpr h

-- ## invariants established by each stage

theorem charInv_delimStep_out (l : List Char) :
    charInv (fun c => !(c == '-' || c == '_')) (delimStep l) := by
  intro c hc
  simp only [delimStep, List.mem_map] at hc
  obtain ⟨x, hx, rfl⟩ := hc
  by_cases h1 : x = '-'
  · simp [h1]
  by_cases h2 : x = '_'
  · simp [h2]
  by_cases h3 : x = ' '
  · simp [h3]
  · simp [h1, h2, h3]

theorem charInv_omitStep_out (l : List Char) :
    charInv (fun c => !(c == '.' || c == '\'')) (omitStep l) := by
  intro c hc
  simp only [omitStep, List.mem_filter] at hc
  exact hc.2

-- ## invariant preservation

theorem charInv_delim (P : Char → Bool) (l : List Char) (hsp : P ' ' = true)
    (h : charInv P l) : charInv P (delimStep l) :=
  fun c hc => (mem_delimStep hc).elim (fun e => e ▸ hsp) (h c)

theorem charInv_omit (P : Char → Bool) (l : List Char) (h : charInv P l) :
    charInv P (omitStep l) :=
  fun c hc => h c (mem_omitStep hc)

theorem charInv_collapse (P : Char → Bool) (l : List Char) (hsp : P ' ' = true)
    (h : charInv P l) : charInv P (collapseStep l) :=
  fun c hc => (mem_collapseF false l hc).elim (fun e => e ▸ hsp) (h c)

theorem charInv_saint (P : Char → Bool) (l : List Char) (hs : P 's' = true)
    (ht : P 't' = true) (h : charInv P l) : charInv P (saintStep l) :=
  fun c hc => (mem_saintStep l hc).elim (fun e => e ▸ hs)
    (fun o => o.elim (fun e => e ▸ ht) (h c))

-- ## whitespace-pair bookkeeping

theorem noWsPairB_cons (c : Char) (l : List Char) :
    noWsPairB (c :: l) = ((!(wsChar c && headWs l)) && noWsPairB l) := by
  cases l with
  | nil => simp [noWsPairB, headWs]
  | cons c2 rest => simp [noWsPairB, headWs]

theorem noWsPairB_tail (c : Char) (l : List Char) (h : noWsPairB (c :: l) = true) :
    noWsPairB l = true := by
  rw [noWsPairB_cons, Bool.and_eq_true] at h
  exact h.2

theorem collapseF_props : ∀ (b : Bool) (l : List Char),
    noWsPairB (collapseF b l) = true ∧
    headWs (collapseF b l) = (if b then false else headWs l) := by
  intro b l
  induction b, l using collapseF.induct with
  | case1 x => cases x <;> simp [collapseF, noWsPairB, headWs]
  | case2 c rest hws ih =>
    rw [collapseF, if_pos hws]
    refine ⟨ih.1, ?_⟩
    simpa using ih.2
  | case3 c rest hws ih =>
    rw [collapseF, if_neg hws]
    have hwc : wsChar c = false := by simpa using hws
    constructor
    · rw [noWsPairB_cons]
      simp [hwc, ih.1]
    · simp [headWs, hwc]
  | case4 c => simp [collapseF, noWsPairB, headWs]
  | case5 c c2 rest2 hws ih =>
    rw [collapseF, if_pos hws]
    have h2 : headWs (collapseF true rest2) = false := by simpa using ih.2
    have hwc : wsChar c = true := by
      rw [Bool.and_eq_true] at hws
      exact hws.1
    have hsp : wsChar ' ' = true := by decide
    constructor
    · rw [noWsPairB_cons]
      simp [h2, ih.1]
    · simp [headWs, hwc, hsp]
  | case6 c c2 rest2 hws ih =>
    rw [collapseF, if_neg hws]
    have h2 : headWs (collapseF false (c2 :: rest2)) = headWs (c2 :: rest2) := by
      simpa using ih.2
    constructor
    · rw [noWsPairB_cons, h2]
      have : (wsChar c && wsChar c2) = false := by simpa using hws
      simp [headWs, ih.1, this]
    · simp [headWs]

theorem collapseStep_noWsPair (l : List Char) : noWsPairB (collapseStep l) = true :=
  (collapseF_props false l).1

theorem collapseF_fix : ∀ l : List Char, noWsPairB l = true → collapseF false l = l := by
  intro l
  induction l with
  | nil => intro h; simp [collapseF]
  | cons c rest ih =>
    cases rest with
    | nil => intro h; simp [collapseF]
    | cons c2 rest2 =>
      intro h
      rw [noWsPairB, Bool.and_eq_true] at h
      obtain ⟨h1, h2⟩ := h
      have h1f : (wsChar c && wsChar c2) = false := by
        revert h1
        cases wsChar c && wsChar c2 <;> simp
      rw [collapseF, if_neg (by simp [h1f]), ih h2]

theorem headWs_saintStep : ∀ l : List Char, headWs (saintStep l) = headWs l := by
  intro l
  induction l using saintStep.induct with
  | case1 rest ih => rw [saintStep]; rfl
  | case2 c rest h ih => rw [saintStep_cons_ne c rest h]; rfl
  | case3 => rfl

theorem saintStep_noWsPair : ∀ l : List Char,
    noWsPairB l = true → noWsPairB (saintStep l) = true := by
  intro l
  induction l using saintStep.induct with
  | case1 rest ih =>
    intro h
    rw [saintStep]
    have h5 : noWsPairB rest = true :=
      noWsPairB_tail _ _ (noWsPairB_tail _ _ (noWsPairB_tail _ _
        (noWsPairB_tail _ _ (noWsPairB_tail _ _ h))))
    rw [noWsPairB_cons, noWsPairB_cons]
    have hs : wsChar 's' = false := by decide
    have ht : wsChar 't' = false := by decide
    simp [hs, ht, ih h5]
  | case2 c rest hne ih =>
    intro h
    rw [saintStep_cons_ne c rest hne, noWsPairB_cons]
    rw [noWsPairB_cons, Bool.and_eq_true] at h
    obtain ⟨h1, h2⟩ := h
    rw [headWs_saintStep]
    simp [h1, ih h2]
  | case3 => intro h; simpa [saintStep] using h

-- ## idempotence of the saint substitution

theorem saintStep_cons_of_ne_head (x : Char) (hx : x ≠ 's') :
    ∀ (rest T : List Char), saintStep rest = x :: T →
      ∃ r2, rest = x :: r2 ∧ T = saintStep r2 := by
  intro rest T h
  cases rest with
  | nil => simp [saintStep] at h
  | cons c0 rest0 =>
    by_cases hp : c0 = 's' ∧ ∃ r1, rest0 = 'a' :: 'i' :: 'n' :: 't' :: r1
    · obtain ⟨rfl, r1, rfl⟩ := hp
      rw [saintStep] at h
      injection h with h1 h2
      exact absurd h1.symm hx
    · have hne : ∀ r1, c0 = 's' → rest0 = 'a' :: 'i' :: 'n' :: 't' :: r1 → False := by
        intro r1 e1 e2
        exact hp ⟨e1, r1, e2⟩
      rw [saintStep_cons_ne c0 rest0 hne] at h
      injection h with h1 h2
      exact ⟨rest0, by rw [h1], h2.symm⟩

theorem saintStep_idem : ∀ l : List Char, saintStep (saintStep l) = saintStep l := by
  intro l
  induction l using saintStep.induct with
  | case1 rest ih =>
    rw [saintStep]
    have h1 : saintStep ('s' :: 't' :: saintStep rest) =
        's' :: saintStep ('t' :: saintStep rest) := by
      apply saintStep_cons_ne
      intro r1 _ e2
      injection e2 with ea _
      exact absurd ea (by decide)
    have h2 : saintStep ('t' :: saintStep rest) = 't' :: saintStep (saintStep rest) := by
      apply saintStep_cons_ne
      intro r1 et _
      exact absurd et (by decide)
    rw [h1, h2, ih]
  | case2 c rest hne ih =>
    rw [saintStep_cons_ne c rest hne]
    by_cases hc : c = 's' ∧ ∃ r1, saintStep rest = 'a' :: 'i' :: 'n' :: 't' :: r1
    · obtain ⟨rfl, r1, hr⟩ := hc
      obtain ⟨r2, hrest, hT⟩ := saintStep_cons_of_ne_head 'a' (by decide) rest _ hr
      obtain ⟨r3, hrest2, hT2⟩ := saintStep_cons_of_ne_head 'i' (by decide) r2 _ hT.symm
      obtain ⟨r4, hrest3, hT3⟩ := saintStep_cons_of_ne_head 'n' (by decide) r3 _ hT2.symm
      obtain ⟨r5, hrest4, hT4⟩ := saintStep_cons_of_ne_head 't' (by decide) r4 _ hT3.symm
      exact (hne r5 rfl (by rw [hrest, hrest2, hrest3, hrest4])).elim
    · have hne2 : ∀ r1, c = 's' → saintStep rest = 'a' :: 'i' :: 'n' :: 't' :: r1 → False := by
        intro r1 e1 e2
        exact hc ⟨e1, r1, e2⟩
      rw [saintStep_cons_ne c _ hne2, ih]
  | case3 => rfl

-- ## the idempotence theorem

/-- Claim C9 (amended): `normalize_name` is idempotent on every string
whose transliteration stage emits only ASCII characters that lowercasing
fixes (given that the transliteration fixes such strings, as `unidecode`
does on ASCII) — in particular on all ASCII input, where `unidecode` is
the identity.  After one pass such a string contains no uppercase ASCII,
no delimiter characters, no omitted punctuation, no adjacent whitespace
pair and no occurrence of `"saint"`, so every stage of the second pass is
the identity.  It is *not* idempotent on all strings: `unidecode` can
emit uppercase ASCII (see the counterexample). -/
theorem claim_C9_amended (uni : List Char → List Char) (l : List Char)
    (hfix : ∀ m : List Char, charInv asciiLowerFixed m → uni m = m)
    (hout : charInv asciiLowerFixed (uni (lowerStep l))) :
    normalize_name_full uni (normalize_name_full uni l) =
      normalize_name_full uni l := by
  unfold normalize_name_full
  set Y := omitStep (delimStep (uni (lowerStep l))) with hY
  set X := saintStep (collapseStep Y) with hX
  have invP : charInv asciiLowerFixed X := by
    apply charInv_saint _ _ (by decide) (by decide)
    apply charInv_collapse _ _ (by decide)
    apply charInv_omit
    apply charInv_delim _ _ (by decide)
    exact hout
  have invL : charInv (fun c => lowerChar c == c) X := by
    intro c hc
    have h2 := invP c hc
    simp only [asciiLowerFixed, Bool.and_eq_true] at h2
    exact h2.2
  rw [lowerStep_fix X invL]
  rw [hfix X invP]
  have invD : charInv (fun c => !(c == '-' || c == '_')) X := by
    apply charInv_saint _ _ (by decide) (by decide)
    apply charInv_collapse _ _ (by decide)
    apply charInv_omit
    exact charInv_delimStep_out _
  rw [delimStep_fix X invD]
  have invO : charInv (fun c => !(c == '.' || c == '\'')) X := by
    apply charInv_saint _ _ (by decide) (by decide)
    apply charInv_collapse _ _ (by decide)
    exact charInv_omitStep_out _
  rw [omitStep_fix X invO]
  have hnw : noWsPairB X = true := saintStep_noWsPair _ (collapseStep_noWsPair Y)
  rw [collapseStep, collapseF_fix X hnw, hX]
  exact saintStep_idem _

/-- Witness for C9 (amended): with the identity transliteration — exact
for this all-ASCII input — normalization of `"S.AINT  Foo-Bar"` is
idempotent. -/
theorem claim_C9_witness :
    normalize_name_full (fun m => m)
        (normalize_name_full (fun m => m) ("S.AINT  Foo-Bar".toList)) =
      normalize_name_full (fun m => m) ("S.AINT  Foo-Bar".toList) :=
  claim_C9_amended (fun m => m) ("S.AINT  Foo-Bar".toList)
    (fun m _ => rfl) (by decide)

/-- Counterexample to C9 as stated: with the transliteration behaving as
the real `unidecode` does on the numero sign (`№ → "No"`, an uppercase
ASCII output), normalization is not idempotent: the first pass yields
`"No"` (the sign is lowercased *before* transliteration, and `№` has no
lowercase form), while the second pass lowercases it to `"no"`. -/
theorem claim_C9_counterexample :
    normalize_name_full unidecodeFrag
        (normalize_name_full unidecodeFrag ("№".toList)) ≠
      normalize_name_full unidecodeFrag ("№".toList) := by decide


/-! ## approximate_distance_to_line (claim C10) -/

theorem normSq_eq_zero_iff (a b : Location) : normSq a b = 0 ↔ a = b := by
  unfold normSq
  rw [add_eq_zero_iff_of_nonneg (sq_nonneg _) (sq_nonneg _)]
  rw [pow_eq_zero_iff (two_ne_zero), pow_eq_zero_iff (two_ne_zero)]
  rw [sub_eq_zero, sub_eq_zero]
  constructor
  · rintro ⟨h1, h2⟩
    cases a
    cases b
    simp only at h1 h2
    simp [h1, h2]
  · rintro rfl
    exact ⟨rfl, rfl⟩

/-- Claim C10 (confirmed): `approximate_distance_to_line` is well-defined
exactly when the segment endpoints differ — for any planar norm vanishing
exactly where the squared norm vanishes, the per-segment scale factor
`geodesic km / planar norm` divides by zero precisely when
`start == end`, so the function returns a (finite) value for all inputs
if and only if `start ≠ end`. -/
theorem claim_C10 (geoKm nrm : Location → Location → ℚ)
    (pld : Location → Location → Location → ℚ) (point start stop : Location)
    (hn : ∀ a b, nrm a b = 0 ↔ normSq a b = 0) :
    (approximate_distance_to_line geoKm nrm pld point start stop).isSome ↔
      start ≠ stop := by
  unfold approximate_distance_to_line
  by_cases h : nrm start stop = 0
  · have heq : start = stop := (normSq_eq_zero_iff start stop).mp ((hn start stop).mp h)
    subst heq
    simp [h]
  · have : ¬ start = stop := by
      intro he
      exact h ((hn start stop).mpr ((normSq_eq_zero_iff start stop).mpr he))
    simp [h, this]

/-- Witness for C10: taking the squared norm itself as the planar norm
(which trivially satisfies the vanishing hypothesis), the function is
defined at the distinct pair `(0,0) ≠ (1,0)`. -/
theorem claim_C10_witness :
    (approximate_distance_to_line (fun _ _ => 0) normSq (fun _ _ _ => 0)
        ⟨0, 0⟩ ⟨0, 0⟩ ⟨1, 0⟩).isSome ↔
      (⟨0, 0⟩ : Location) ≠ ⟨1, 0⟩ :=
  claim_C10 (fun _ _ => 0) normSq (fun _ _ _ => 0) ⟨0, 0⟩ ⟨0, 0⟩ ⟨1, 0⟩
    (fun a b => Iff.rfl)


end TrainCompany
